import Mathlib

/-!
Verification of the inventory consumption engine of the Camellia POS
repository.  The definitions below are a shallow embedding of the backend
routes that the specification describes:

* the POS order creation handler (orders route: BOM lookup, inline unit
  conversion, clamped stock deduction, SALE ledger insert wrapped in a
  swallowed try/catch, all inside one BEGIN/COMMIT/ROLLBACK transaction);
* the inventory routes (create/update item, add/remove stock, alert
  queries) and the product-ingredient replace-all route;
* the SQL schema facts that matter (UNIQUE(product_id, inventory_item_id),
  SERIAL primary keys).

Quantities are NUMERIC in the schema and JavaScript numbers in the routes;
they are modelled as exact rationals.  Dates (SQL DATE) are modelled as
integer day numbers; SQL timestamps as rationals (day number plus a
fractional time of day).
-/

/-- The enumerated measurement units accepted by the inventory routes
(`validUnits` in the inventory route, CHECK constraint in the schema). -/
inductive StockUnit
  | grams
  | kilograms
  | pieces
  | liters
  | ml
  deriving DecidableEq, Repr

/-- Ledger entry kinds (`transaction_type` CHECK constraint in the schema). -/
inductive TxType
  | ADD
  | REMOVE
  | ADJUST
  | EXPIRED
  | SALE
  deriving DecidableEq, Repr

/-- A row of `inventory_items` (main schema revision: quantity / unit /
expire_date / low_stock_threshold). -/
structure InventoryItem where
  id : Nat
  name : String
  quantity : ℚ
  unit : StockUnit
  expire_date : Option Int
  low_stock_threshold : ℚ
  category : Option String
  cost_per_unit : Option ℚ
  deriving DecidableEq, Repr

/-- A row of `product_inventory` (the Bill of Materials table,
UNIQUE(product_id, inventory_item_id)). -/
structure ProductInventory where
  product_id : Nat
  inventory_item_id : Nat
  quantity_required : ℚ
  unit : StockUnit
  deriving DecidableEq, Repr

/-- A row of `inventory_transactions` (the append-only stock ledger). -/
structure LedgerEntry where
  inventory_item_id : Nat
  transaction_type : TxType
  quantity : ℚ
  unit : StockUnit
  reference_id : Option Nat
  reference_type : Option String
  notes : String
  created_by : String
  deriving DecidableEq, Repr

/-- A row of `orders`. -/
structure OrderRow where
  id : Nat
  total : ℚ
  payment_method : String
  deriving DecidableEq, Repr

/-- A row of `order_items`. -/
structure OrderItemRow where
  order_id : Nat
  product_id : Nat
  qty : Nat
  price : ℚ
  deriving DecidableEq, Repr

/-- The persistent state the order/inventory routes read and write.
`nextOrderId` models the SERIAL id allocation of `orders`. -/
structure DB where
  items : List InventoryItem
  product_inventory : List ProductInventory
  transactions : List LedgerEntry
  orders : List OrderRow
  order_items : List OrderItemRow
  nextOrderId : Nat
  deriving DecidableEq, Repr

/-- One element of the `items` array of a POS order request. -/
structure OrderItemReq where
  product_id : Nat
  qty : Nat
  price : ℚ
  deriving DecidableEq, Repr

/-- A POS order creation request body (plus the authenticated user). -/
structure OrderReq where
  total : ℚ
  payment_method : String
  items : List OrderItemReq
  user : String
  deriving DecidableEq, Repr

/-- The inline unit conversion of the order creation handler: an if/else
chain over the four factor-of-1000 pairs, falling through unchanged for
every other pair of distinct units ("For pieces or same units, no
conversion needed"). -/
def convertQty (q : ℚ) (requiredUnit inventoryUnit : StockUnit) : ℚ :=
  if requiredUnit = inventoryUnit then q
  else if requiredUnit = StockUnit.grams ∧ inventoryUnit = StockUnit.kilograms then q / 1000
  else if requiredUnit = StockUnit.kilograms ∧ inventoryUnit = StockUnit.grams then q * 1000
  else if requiredUnit = StockUnit.ml ∧ inventoryUnit = StockUnit.liters then q / 1000
  else if requiredUnit = StockUnit.liters ∧ inventoryUnit = StockUnit.ml then q * 1000
  else q

/-- One row of the BOM SELECT in the order handler: `product_inventory`
joined with `inventory_items`, carrying the stock snapshot
(`current_quantity`) and the stock unit read at query time. -/
structure BomRow where
  inventory_item_id : Nat
  quantity_required : ℚ
  unit : StockUnit
  current_quantity : ℚ
  inventory_unit : StockUnit
  deriving DecidableEq, Repr

/-- The BOM SELECT of the order handler: all `product_inventory` rows of
the product, inner-joined with the referenced inventory item. -/
def bomQuery (db : DB) (pid : Nat) : List BomRow :=
  (db.product_inventory.filter fun e => e.product_id = pid).filterMap fun e =>
    (db.items.find? fun it => it.id = e.inventory_item_id).map fun ii =>
      { inventory_item_id := e.inventory_item_id
        quantity_required := e.quantity_required
        unit := e.unit
        current_quantity := ii.quantity
        inventory_unit := ii.unit }

/-- The SALE ledger row the order handler inserts for one BOM deduction. -/
def mkSaleEntry (orderId pid : Nat) (user : String) (iid : Nat) (q : ℚ)
    (u : StockUnit) : LedgerEntry :=
  { inventory_item_id := iid
    transaction_type := TxType.SALE
    quantity := q
    unit := u
    reference_id := some orderId
    reference_type := some "ORDER"
    notes := "Order #" ++ toString orderId ++ " - Product ID: " ++ toString pid
    created_by := user }

/-- The stock UPDATE of the order handler:
`SET quantity = GREATEST(0, quantity - $1) WHERE id = $2`. -/
def deductItems (items : List InventoryItem) (iid : Nat) (d : ℚ) :
    List InventoryItem :=
  items.map fun it =>
    if it.id = iid then { it with quantity := max 0 (it.quantity - d) } else it

/-- The body of the inner BOM loop of the order handler: compute the
required quantity, convert units, clamp to the stock snapshot, and when the
clamped amount is positive issue the stock UPDATE and the SALE ledger
insert. -/
def processBomRow (orderId pid : Nat) (oqty : Nat) (user : String)
    (db : DB) (r : BomRow) : DB :=
  let qtyNeeded := convertQty (r.quantity_required * (oqty : ℚ)) r.unit r.inventory_unit
  let qtyNeeded := if r.current_quantity < qtyNeeded then r.current_quantity else qtyNeeded
  if 0 < qtyNeeded then
    { db with
      items := deductItems db.items r.inventory_item_id qtyNeeded
      transactions := db.transactions ++
        [mkSaleEntry orderId pid user r.inventory_item_id qtyNeeded r.inventory_unit] }
  else db

/-- The transaction body of the order handler with every storage operation
succeeding: insert the order row, insert the order items, then for each
item run the BOM SELECT and fold the deduction loop over its rows. -/
def createOrderBody (db : DB) (req : OrderReq) : DB :=
  let orderId := db.nextOrderId
  let db1 := { db with
    orders := db.orders ++ [{ id := orderId, total := req.total, payment_method := req.payment_method }]
    nextOrderId := orderId + 1 }
  let db2 := req.items.foldl (fun d it =>
    { d with order_items := d.order_items ++
        [{ order_id := orderId, product_id := it.product_id, qty := it.qty, price := it.price }] }) db1
  req.items.foldl (fun d it =>
    (bomQuery d it.product_id).foldl
      (processBomRow orderId it.product_id it.qty req.user) d) db2

/-- The POS order creation route (fault-free run): the request validation
rejects a falsy total, a falsy payment method, or an empty item list before
BEGIN; otherwise the transaction body runs and commits. The Bool is
whether the request succeeded (HTTP 201). -/
def createOrder (db : DB) (req : OrderReq) : DB × Bool :=
  if req.total = 0 ∨ req.payment_method = "" ∨ req.items = [] then (db, false)
  else (createOrderBody db req, true)

/-- A sequence of POS orders processed one after the other. -/
def processOrders (db : DB) (reqs : List OrderReq) : DB :=
  reqs.foldl (fun d r => (createOrder d r).1) db

/-! ### Storage-fault semantics of the order handler

Each named storage operation of the transaction can be made to throw; the
handler catches any uncaught error with ROLLBACK, except that the SALE
ledger insert sits inside its own try/catch whose catch block only logs
("Transaction table might not exist, that's okay - inventory was still
deducted"). -/

/-- The storage operations issued inside the order transaction. -/
inductive DbOp
  | orderInsert
  | orderItemInsert (product_id : Nat)
  | bomSelect (product_id : Nat)
  | stockUpdate (inventory_item_id : Nat)
  | ledgerInsert (inventory_item_id : Nat)
  deriving DecidableEq, Repr

/-- Run one storage operation against a fault oracle. -/
def chk (faults : DbOp → Bool) (op : DbOp) : Except Unit Unit :=
  if faults op then Except.error () else Except.ok ()

/-- The inner BOM loop body with storage faults: a faulting stock UPDATE
throws (and will roll the order back); a faulting SALE ledger insert is
swallowed and processing continues with the deduction kept. -/
def processBomRowF (faults : DbOp → Bool) (orderId pid : Nat) (oqty : Nat)
    (user : String) (db : DB) (r : BomRow) : Except Unit DB :=
  let qtyNeeded := convertQty (r.quantity_required * (oqty : ℚ)) r.unit r.inventory_unit
  let qtyNeeded := if r.current_quantity < qtyNeeded then r.current_quantity else qtyNeeded
  if 0 < qtyNeeded then
    match chk faults (DbOp.stockUpdate r.inventory_item_id) with
    | Except.error e => Except.error e
    | Except.ok _ =>
      let db1 := { db with items := deductItems db.items r.inventory_item_id qtyNeeded }
      if faults (DbOp.ledgerInsert r.inventory_item_id) then Except.ok db1
      else Except.ok { db1 with transactions := db1.transactions ++
        [mkSaleEntry orderId pid user r.inventory_item_id qtyNeeded r.inventory_unit] }
  else Except.ok db

/-- The transaction body with storage faults. -/
def createOrderBodyF (faults : DbOp → Bool) (db : DB) (req : OrderReq) :
    Except Unit DB := do
  let _ ← chk faults DbOp.orderInsert
  let orderId := db.nextOrderId
  let db1 := { db with
    orders := db.orders ++ [{ id := orderId, total := req.total, payment_method := req.payment_method }]
    nextOrderId := orderId + 1 }
  let db2 ← req.items.foldlM (fun d it => do
    let _ ← chk faults (DbOp.orderItemInsert it.product_id)
    pure { d with order_items := d.order_items ++
      [{ order_id := orderId, product_id := it.product_id, qty := it.qty, price := it.price }] }) db1
  req.items.foldlM (fun d it => do
    let _ ← chk faults (DbOp.bomSelect it.product_id)
    (bomQuery d it.product_id).foldlM
      (processBomRowF faults orderId it.product_id it.qty req.user) d) db2

/-- The POS order creation route under the fault oracle: validation as in
the fault-free run; an uncaught error triggers ROLLBACK, leaving the
database unchanged and answering failure. -/
def createOrderF (faults : DbOp → Bool) (db : DB) (req : OrderReq) : DB × Bool :=
  if req.total = 0 ∨ req.payment_method = "" ∨ req.items = [] then (db, false)
  else
    match createOrderBodyF faults db req with
    | Except.ok db' => (db', true)
    | Except.error _ => (db, false)

/-! ### Observation functions used by the stated properties -/

/-- The stored quantity of the item with the given id in a list of
inventory rows (0 when no such row exists). -/
def qtyOfItems (items : List InventoryItem) (i : Nat) : ℚ :=
  ((items.find? fun it => it.id = i).map InventoryItem.quantity).getD 0

/-- The stored quantity of the inventory item with the given id (0 when no
such row exists). -/
def qtyOf (db : DB) (i : Nat) : ℚ :=
  qtyOfItems db.items i

/-- Sum of the quantities of the SALE ledger entries for one item. -/
def saleSum (i : Nat) (l : List LedgerEntry) : ℚ :=
  (l.map fun e =>
    if e.transaction_type = TxType.SALE ∧ e.inventory_item_id = i then e.quantity else 0).sum

/-- The UNIQUE(product_id, inventory_item_id) constraint of the
`product_inventory` table. -/
def bomUnique (db : DB) : Prop :=
  db.product_inventory.Pairwise fun a b =>
    ¬(a.product_id = b.product_id ∧ a.inventory_item_id = b.inventory_item_id)

instance (db : DB) : Decidable (bomUnique db) := by
  unfold bomUnique; infer_instance

/-- Relation between a database and a later one reachable by order
consumption: the BOM table is untouched, the ledger only grows, and every
item's quantity decreases by exactly the freshly logged SALE amount, which
is non-negative and never exceeds the stock that was available. -/
def StepRel (db db' : DB) : Prop :=
  db'.product_inventory = db.product_inventory ∧
  ∃ tail, db'.transactions = db.transactions ++ tail ∧
    ∀ i, 0 ≤ saleSum i tail ∧ saleSum i tail ≤ max 0 (qtyOf db i) ∧
      qtyOf db' i = qtyOf db i - saleSum i tail

/-! ### Administrative inventory routes (inventory route file) -/

/-- Request body of PUT /:id on the inventory routes.  A missing field is
`none`; the SQL uses COALESCE for quantity, unit and low_stock_threshold
and overwrites expire_date, category and cost_per_unit. -/
structure UpdateItemReq where
  name : String
  quantity : Option ℚ
  unit : Option StockUnit
  expire_date : Option Int
  low_stock_threshold : Option ℚ
  category : Option String
  cost_per_unit : Option ℚ
  deriving DecidableEq, Repr

/-- The ADJUST ledger row logged by PUT /:id when the quantity moved by
more than 0.001. -/
def mkAdjustEntry (iid : Nat) (diff : ℚ) (u : StockUnit) (user : String) :
    LedgerEntry :=
  { inventory_item_id := iid
    transaction_type := TxType.ADJUST
    quantity := |diff|
    unit := u
    reference_id := none
    reference_type := none
    notes := if 0 < diff then "Stock adjustment (increase)" else "Stock adjustment (decrease)"
    created_by := user }

/-- PUT /:id — update an inventory item.  The route rejects a missing
name, reads the current row, issues the UPDATE (COALESCE keeps the old
quantity/unit/threshold when the request omits them), and best-effort logs
an ADJUST ledger entry when the quantity changed by more than 0.001.
There is no sign check on the supplied quantity. -/
def putInventoryItem (db : DB) (id : Nat) (r : UpdateItemReq) (user : String) : DB :=
  if r.name = "" then db
  else
    let current := db.items.find? fun it => it.id = id
    let db1 := { db with items := db.items.map fun it =>
      if it.id = id then
        { it with
          name := r.name
          quantity := r.quantity.getD it.quantity
          unit := r.unit.getD it.unit
          expire_date := r.expire_date
          low_stock_threshold := r.low_stock_threshold.getD it.low_stock_threshold
          category := r.category
          cost_per_unit := r.cost_per_unit }
      else it }
    match r.quantity, current with
    | some nq, some it0 =>
      let diff := nq - it0.quantity
      if 1/1000 < |diff| then
        { db1 with transactions := db1.transactions ++
          [mkAdjustEntry id diff (r.unit.getD it0.unit) user] }
      else db1
    | _, _ => db1

/-- POST /:id/add — add stock.  Rejects a non-positive (or zero, falsy)
quantity, adds it to the row, and best-effort logs an ADD ledger entry. -/
def addStock (db : DB) (id : Nat) (q : ℚ) (user : String) : DB :=
  if ¬ 0 < q then db
  else
    match db.items.find? fun it => it.id = id with
    | none => db
    | some it0 =>
      { db with
        items := db.items.map fun it =>
          if it.id = id then { it with quantity := it.quantity + q } else it
        transactions := db.transactions ++
          [{ inventory_item_id := id, transaction_type := TxType.ADD, quantity := q,
             unit := it0.unit, reference_id := none, reference_type := none,
             notes := "Stock added", created_by := user }] }

/-- POST /:id/remove — remove stock.  Rejects a non-positive quantity,
answers "Insufficient stock" when the current quantity is below the
requested amount, otherwise subtracts and best-effort logs a REMOVE
ledger entry. -/
def removeStock (db : DB) (id : Nat) (q : ℚ) (user : String) : DB :=
  if ¬ 0 < q then db
  else
    match db.items.find? fun it => it.id = id with
    | none => db
    | some it0 =>
      if it0.quantity < q then db
      else
        { db with
          items := db.items.map fun it =>
            if it.id = id then { it with quantity := it.quantity - q } else it
          transactions := db.transactions ++
            [{ inventory_item_id := id, transaction_type := TxType.REMOVE, quantity := q,
               unit := it0.unit, reference_id := none, reference_type := none,
               notes := "Stock removed", created_by := user }] }

/-! ### Alert classification call sites -/

/-- The status CASE expression of GET / on the inventory routes, with
`today` the value of CURRENT_DATE as a day number. -/
inductive ItemStatus
  | expired
  | expiring_soon
  | low_stock
  | normal
  deriving DecidableEq, Repr

/-- GET / status:
CASE WHEN expire_date IS NOT NULL AND expire_date < CURRENT_DATE
     THEN expired
     WHEN expire_date IS NOT NULL AND expire_date <= CURRENT_DATE + 3 days
     THEN expiring_soon
     WHEN quantity <= low_stock_threshold THEN low_stock
     ELSE normal END. -/
def statusOf (it : InventoryItem) (today : Int) : ItemStatus :=
  match it.expire_date with
  | some d =>
    if d < today then ItemStatus.expired
    else if d ≤ today + 3 then ItemStatus.expiring_soon
    else if it.quantity ≤ it.low_stock_threshold then ItemStatus.low_stock
    else ItemStatus.normal
  | none =>
    if it.quantity ≤ it.low_stock_threshold then ItemStatus.low_stock
    else ItemStatus.normal

/-- GET /alerts/summary lowStock WHERE clause:
`quantity <= low_stock_threshold AND low_stock_threshold > 0`. -/
def summaryLowStock (it : InventoryItem) : Bool :=
  decide (it.quantity ≤ it.low_stock_threshold) && decide (0 < it.low_stock_threshold)

/-- GET /alerts/summary expiringSoon WHERE clause:
`expire_date IS NOT NULL AND expire_date > CURRENT_DATE AND
 expire_date <= CURRENT_DATE + 7 days`. -/
def summaryExpiringSoon (today : Int) (it : InventoryItem) : Bool :=
  match it.expire_date with
  | some d => decide (today < d) && decide (d ≤ today + 7)
  | none => false

/-- GET /alerts/summary expired WHERE clause:
`expire_date IS NOT NULL AND expire_date < CURRENT_DATE`. -/
def summaryExpired (today : Int) (it : InventoryItem) : Bool :=
  match it.expire_date with
  | some d => decide (d < today)
  | none => false

/-- A row of the earlier `inventory_items` schema revision used by the
second inventory route file (current_stock / min_stock / expiry_date /
isActive). -/
structure InventoryItemV1 where
  id : Nat
  name : String
  unit : String
  current_stock : ℚ
  min_stock : ℚ
  expiry_date : Option Int
  isActive : Bool
  deriving DecidableEq, Repr

/-- GET /alerts lowStock WHERE clause of the second inventory route file:
`"isActive" = true AND current_stock <= min_stock AND current_stock > 0`. -/
def alertsLowStock (it : InventoryItemV1) : Bool :=
  it.isActive && decide (it.current_stock ≤ it.min_stock) && decide (0 < it.current_stock)

/-- GET /alerts nearExpiry WHERE clause of the second inventory route
file.  `now` is the current timestamp (a day number plus the fractional
time of day); the stored DATE compares as midnight of its day; the bound
is `new Date()` plus three days at the same time of day:
`expiry_date <= now + 3 AND expiry_date >= now`. -/
def alertsNearExpiry (now : ℚ) (it : InventoryItemV1) : Bool :=
  it.isActive &&
    match it.expiry_date with
    | some d => decide ((d : ℚ) ≤ now + 3) && decide (now ≤ (d : ℚ))
    | none => false

/-- GET /alerts expired WHERE clause of the second inventory route file:
`expiry_date < now` with `now` the current timestamp. -/
def alertsExpired (now : ℚ) (it : InventoryItemV1) : Bool :=
  it.isActive &&
    match it.expiry_date with
    | some d => decide ((d : ℚ) < now)
    | none => false

/-! ### Product ingredient replace-all route (second inventory route file) -/

/-- A row of `product_ingredients`. -/
structure ProductIngredient where
  product_id : Nat
  inventory_item_id : Nat
  quantity : ℚ
  deriving DecidableEq, Repr

/-- One element of the `ingredients` array of the replace-all request. -/
structure IngredientReq where
  inventory_item_id : Nat
  quantity : ℚ
  deriving DecidableEq, Repr

/-- The INSERT ... ON CONFLICT (product_id, inventory_item_id) DO UPDATE
SET quantity of the replace-all loop. -/
def upsertIngredient (tbl : List ProductIngredient) (pid : Nat)
    (ing : IngredientReq) : List ProductIngredient :=
  if tbl.any fun r =>
      decide (r.product_id = pid) && decide (r.inventory_item_id = ing.inventory_item_id) then
    tbl.map fun r =>
      if r.product_id = pid ∧ r.inventory_item_id = ing.inventory_item_id then
        { r with quantity := ing.quantity }
      else r
  else tbl ++ [{ product_id := pid, inventory_item_id := ing.inventory_item_id,
                 quantity := ing.quantity }]

/-- POST /products/:productId/ingredients — replace a product's whole
ingredient list: DELETE every row of the product, then upsert each entry
of the request whose inventory_item_id is truthy (non-zero) and whose
quantity is positive. -/
def setRecipe (tbl : List ProductIngredient) (pid : Nat)
    (ings : List IngredientReq) : List ProductIngredient :=
  ings.foldl
    (fun t ing =>
      if ing.inventory_item_id ≠ 0 ∧ 0 < ing.quantity then upsertIngredient t pid ing else t)
    (tbl.filter fun r => ¬ r.product_id = pid)

/-- GET /products/:productId/ingredients — the rows of the product, in
table order (the SELECT has no ORDER BY; the embedding keeps insertion
order). -/
def entriesFor (tbl : List ProductIngredient) (pid : Nat) : List ProductIngredient :=
  tbl.filter fun r => r.product_id = pid

/-! ### Concrete scenarios used to instantiate the stated properties -/

/-- An inventory item holding 5 grams of flour. -/
def flour5 : InventoryItem :=
  { id := 1, name := "Flour", quantity := 5, unit := StockUnit.grams,
    expire_date := none, low_stock_threshold := 0, category := none, cost_per_unit := none }

/-- A database whose only item is `flour5`. -/
def dbFlour5 : DB :=
  { items := [flour5], product_inventory := [], transactions := [],
    orders := [], order_items := [], nextOrderId := 1 }

/-- A BOM row requiring 8 grams of item 1 against a stock snapshot of 5. -/
def rowNeed8 : BomRow :=
  { inventory_item_id := 1, quantity_required := 8, unit := StockUnit.grams,
    current_quantity := 5, inventory_unit := StockUnit.grams }

/-- An inventory item holding 10 grams of sugar. -/
def sugar10 : InventoryItem :=
  { id := 1, name := "Sugar", quantity := 10, unit := StockUnit.grams,
    expire_date := none, low_stock_threshold := 0, category := none, cost_per_unit := none }

/-- A database whose only item is `sugar10`, with a BOM entry expressing
the requirement in pieces while the stock unit is grams. -/
def dbSugar10 : DB :=
  { items := [sugar10],
    product_inventory :=
      [{ product_id := 7, inventory_item_id := 1, quantity_required := 2,
         unit := StockUnit.pieces }],
    transactions := [], orders := [], order_items := [], nextOrderId := 1 }

/-- The BOM row the order handler reads from `dbSugar10` for product 7. -/
def rowPieces : BomRow :=
  { inventory_item_id := 1, quantity_required := 2, unit := StockUnit.pieces,
    current_quantity := 10, inventory_unit := StockUnit.grams }

/-- A database with 10 grams of sugar and a product-7 recipe of 4 grams
per unit sold. -/
def dbOrder : DB :=
  { items := [sugar10],
    product_inventory :=
      [{ product_id := 7, inventory_item_id := 1, quantity_required := 4,
         unit := StockUnit.grams }],
    transactions := [], orders := [], order_items := [], nextOrderId := 1 }

/-- A valid POS request selling one unit of product 7. -/
def reqOne : OrderReq :=
  { total := 5, payment_method := "CASH",
    items := [{ product_id := 7, qty := 1, price := 5 }], user := "cashier" }

/-- A fault oracle under which every SALE ledger insert throws and every
other storage operation succeeds. -/
def ledgerFaults : DbOp → Bool := fun op =>
  match op with
  | DbOp.ledgerInsert _ => true
  | _ => false

/-- A request updating item 1 to a negative quantity (the route performs
no sign check). -/
def negUpdate : UpdateItemReq :=
  { name := "Flour", quantity := some (-1), unit := none, expire_date := none,
    low_stock_threshold := none, category := none, cost_per_unit := none }

/-- A database mirroring the end-to-end scenario of the spec: 150 grams
of flour in stock, a recipe needing 200 grams per unit sold. -/
def dbScenario : DB :=
  { items := [{ id := 1, name := "Flour", quantity := 150, unit := StockUnit.grams,
                expire_date := none, low_stock_threshold := 10, category := none,
                cost_per_unit := none }],
    product_inventory :=
      [{ product_id := 3, inventory_item_id := 1, quantity_required := 200,
         unit := StockUnit.grams }],
    transactions := [], orders := [], order_items := [], nextOrderId := 1 }

/-- An order selling one unit of product 3. -/
def reqScenario : OrderReq :=
  { total := 10, payment_method := "CARD",
    items := [{ product_id := 3, qty := 1, price := 10 }], user := "admin" }

/-- An item with zero quantity, zero threshold and no expiry date. -/
def zeroItem : InventoryItem :=
  { id := 2, name := "Salt", quantity := 0, unit := StockUnit.grams,
    expire_date := none, low_stock_threshold := 0, category := none, cost_per_unit := none }

/-- An item whose expiry date is day 100. -/
def expiresToday : InventoryItem :=
  { id := 3, name := "Milk", quantity := 4, unit := StockUnit.liters,
    expire_date := some 100, low_stock_threshold := 1, category := none,
    cost_per_unit := none }

/-- A BOM row whose stock snapshot is zero. -/
def rowEmpty : BomRow :=
  { inventory_item_id := 1, quantity_required := 3, unit := StockUnit.grams,
    current_quantity := 0, inventory_unit := StockUnit.grams }

/-- The per-row function of the ON CONFLICT UPDATE branch of the
replace-all ingredients route. -/
def updQuantity (pid : Nat) (ing : IngredientReq) (r : ProductIngredient) :
    ProductIngredient :=
  if r.product_id = pid ∧ r.inventory_item_id = ing.inventory_item_id then
    { r with quantity := ing.quantity }
  else r

/-! ## Helper lemmas -/

/-- The per-item update of the stock UPDATE keeps every row's id. -/
lemma deduct_row_id (a : InventoryItem) (t : Nat) (d : ℚ) :
    ((if a.id = t then { a with quantity := max 0 (a.quantity - d) } else a)).id = a.id := by
  split <;> rfl

lemma find?_deduct (items : List InventoryItem) (t : Nat) (d : ℚ) (i : Nat) :
    ((deductItems items t d).find? fun it => it.id = i) =
      (items.find? fun it => it.id = i).map fun it =>
        if it.id = t then { it with quantity := max 0 (it.quantity - d) } else it := by
  induction items with
  | nil => rfl
  | cons a tl ih =>
    simp only [deductItems, List.map_cons]
    by_cases ha : a.id = i
    · rw [List.find?_cons_of_pos _ (by simp only [deduct_row_id]; simp [ha]),
        List.find?_cons_of_pos _ (by simp [ha])]
      rfl
    · rw [List.find?_cons_of_neg _ (by simp only [deduct_row_id]; simp [ha]),
        List.find?_cons_of_neg _ (by simp [ha])]
      exact ih

lemma qtyOfItems_deduct_ne (items : List InventoryItem) (t : Nat) (d : ℚ) (i : Nat)
    (h : i ≠ t) : qtyOfItems (deductItems items t d) i = qtyOfItems items i := by
  unfold qtyOfItems
  rw [find?_deduct]
  cases hf : items.find? fun it => it.id = i with
  | none => rfl
  | some it =>
    have hit : it.id = i := by simpa using List.find?_some hf
    simp [hit, h]

lemma qtyOfItems_deduct_eq (items : List InventoryItem) (t : Nat) (d : ℚ)
    (hd : 0 ≤ d) : qtyOfItems (deductItems items t d) t = max 0 (qtyOfItems items t - d) := by
  unfold qtyOfItems
  rw [find?_deduct]
  cases hf : items.find? fun it => it.id = t with
  | none => simpa using hd
  | some it =>
    have hit : it.id = t := by simpa using List.find?_some hf
    simp [hit]

/-! ## Claims about unit conversion and the BOM deduction loop -/

/-- Claim C8: for every quantity and every supported same-family unit pair
(grams/kilograms, ml/liters), converting and converting back reproduces the
value exactly, and converting within the same unit is the identity.  The
conversion is a plain function of its inputs. -/
theorem c8_conversion_round_trip :
    (∀ (x : ℚ) (u : StockUnit), convertQty x u u = x) ∧
    (∀ x : ℚ, convertQty (convertQty x StockUnit.grams StockUnit.kilograms)
      StockUnit.kilograms StockUnit.grams = x) ∧
    (∀ x : ℚ, convertQty (convertQty x StockUnit.kilograms StockUnit.grams)
      StockUnit.grams StockUnit.kilograms = x) ∧
    (∀ x : ℚ, convertQty (convertQty x StockUnit.ml StockUnit.liters)
      StockUnit.liters StockUnit.ml = x) ∧
    (∀ x : ℚ, convertQty (convertQty x StockUnit.liters StockUnit.ml)
      StockUnit.ml StockUnit.liters = x) := by
  refine ⟨fun x u => by simp [convertQty], ?_, ?_, ?_, ?_⟩ <;>
    exact fun x => by simp [convertQty]

/-- Claim C2 (failing input): a BOM entry expressed in pieces against a
stock kept in grams is a cross-family pair, yet the handler raises no
error: the conversion chain falls through, the numerically unconverted
quantity 6 is deducted from the 10 grams in stock, and the SALE ledger
entry records it.  There is no UnitMismatchError anywhere in the code. -/
theorem c2_cross_family_silently_coerced :
    convertQty ((2 : ℚ) * ((3 : Nat) : ℚ)) StockUnit.pieces StockUnit.grams = 6 ∧
    qtyOf (processBomRow 1 7 3 "u" dbSugar10 rowPieces) 1 = 4 ∧
    (processBomRow 1 7 3 "u" dbSugar10 rowPieces).transactions =
      [mkSaleEntry 1 7 "u" 1 6 StockUnit.grams] := by
  refine ⟨by norm_num +decide [convertQty], ?_, ?_⟩ <;>
    norm_num +decide [processBomRow, qtyOf, qtyOfItems, dbSugar10, rowPieces, sugar10,
      convertQty, deductItems, mkSaleEntry, List.find?]

/-- Claim C10: when the stock snapshot of a BOM row is zero, the clamped
deduction is zero, the `qtyNeeded > 0` guard skips both the stock UPDATE
and the SALE ledger insert — the database is completely unchanged by that
row — while the order request itself still succeeds. -/
theorem c10_zero_stock_leaves_no_trace (orderId pid : Nat) (oqty : Nat) (user : String)
    (db : DB) (r : BomRow) (req : OrderReq) (h0 : r.current_quantity = 0)
    (hreq : ¬(req.total = 0 ∨ req.payment_method = "" ∨ req.items = [])) :
    processBomRow orderId pid oqty user db r = db ∧
    (createOrder db req).2 = true := by
  constructor
  · simp only [processBomRow]
    split_ifs with h1 h2 h3
    · exact absurd (h0 ▸ h2) (lt_irrefl 0)
    · rfl
    · rw [h0] at h1; exact absurd h3 h1
    · rfl
  · simp [createOrder, hreq]

/-- Witness for `c10_zero_stock_leaves_no_trace` at the concrete database
`dbOrder` with a zero-stock BOM row and a valid request. -/
theorem c10_zero_stock_leaves_no_trace_witness :
    rowEmpty.current_quantity = 0 ∧
    ¬(reqOne.total = 0 ∨ reqOne.payment_method = "" ∨ reqOne.items = []) ∧
    (processBomRow 1 3 2 "u" dbOrder rowEmpty = dbOrder ∧
      (createOrder dbOrder reqOne).2 = true) :=
  ⟨by norm_num +decide [rowEmpty], by norm_num +decide [reqOne],
    c10_zero_stock_leaves_no_trace 1 3 2 "u" dbOrder rowEmpty reqOne
      (by norm_num +decide [rowEmpty]) (by norm_num +decide [reqOne])⟩

/-- Claim C1: when the converted required quantity exceeds the stock
snapshot (which matches the stored quantity, as it does when the row comes
from the BOM SELECT), the deduction clamps to the available stock: the
final stored quantity is 0 and the appended SALE ledger entry records the
actually deducted amount `current_quantity`, not the requested amount. -/
theorem c1_clamped_deduction (orderId pid : Nat) (oqty : Nat) (user : String)
    (db : DB) (r : BomRow)
    (hsnap : qtyOf db r.inventory_item_id = r.current_quantity)
    (hpos : 0 < r.current_quantity)
    (hover : r.current_quantity <
      convertQty (r.quantity_required * (oqty : ℚ)) r.unit r.inventory_unit) :
    qtyOf (processBomRow orderId pid oqty user db r) r.inventory_item_id = 0 ∧
    (processBomRow orderId pid oqty user db r).transactions =
      db.transactions ++
        [mkSaleEntry orderId pid user r.inventory_item_id r.current_quantity r.inventory_unit] := by
  have hred : processBomRow orderId pid oqty user db r =
      { db with
        items := deductItems db.items r.inventory_item_id r.current_quantity
        transactions := db.transactions ++
          [mkSaleEntry orderId pid user r.inventory_item_id r.current_quantity r.inventory_unit] } := by
    simp only [processBomRow]
    rw [if_pos hover, if_pos hpos]
  rw [hred]
  refine ⟨?_, rfl⟩
  show qtyOfItems (deductItems db.items r.inventory_item_id r.current_quantity)
    r.inventory_item_id = 0
  rw [qtyOfItems_deduct_eq _ _ _ (le_of_lt hpos)]
  have : qtyOfItems db.items r.inventory_item_id = r.current_quantity := hsnap
  rw [this]
  simp

/-- Witness for `c1_clamped_deduction`: stock 5, required 8 — the final
quantity is 0 and the ledger entry records 5. -/
theorem c1_clamped_deduction_witness :
    qtyOf dbFlour5 rowNeed8.inventory_item_id = rowNeed8.current_quantity ∧
    (0 : ℚ) < rowNeed8.current_quantity ∧
    rowNeed8.current_quantity <
      convertQty (rowNeed8.quantity_required * ((1 : Nat) : ℚ)) rowNeed8.unit
        rowNeed8.inventory_unit ∧
    (qtyOf (processBomRow 1 3 1 "u" dbFlour5 rowNeed8) rowNeed8.inventory_item_id = 0 ∧
      (processBomRow 1 3 1 "u" dbFlour5 rowNeed8).transactions =
        dbFlour5.transactions ++
          [mkSaleEntry 1 3 "u" rowNeed8.inventory_item_id rowNeed8.current_quantity
            rowNeed8.inventory_unit]) :=
  ⟨by norm_num +decide [qtyOf, qtyOfItems, dbFlour5, flour5, rowNeed8, List.find?],
    by norm_num +decide [rowNeed8],
    by norm_num +decide [rowNeed8, convertQty],
    c1_clamped_deduction 1 3 1 "u" dbFlour5 rowNeed8
      (by norm_num +decide [qtyOf, qtyOfItems, dbFlour5, flour5, rowNeed8, List.find?])
      (by norm_num +decide [rowNeed8])
      (by norm_num +decide [rowNeed8, convertQty])⟩

/-! ## Claims about alert classification -/

/-- Claim C6 counterexample: at the inventory-list status call site, an
item with quantity 0, threshold 0 and no expiry date is classified
low_stock even though its threshold is not strictly positive — a
threshold of 0 does not disable the alert there, contradicting the
claimed "low stock iff threshold > 0 and quantity <= threshold" at every
call site. -/
theorem c6_threshold_zero_counterexample :
    statusOf zeroItem 100 = ItemStatus.low_stock ∧
    ¬(0 < zeroItem.low_stock_threshold ∧
      zeroItem.quantity ≤ zeroItem.low_stock_threshold) := by
  constructor
  · norm_num +decide [statusOf, zeroItem]
  · norm_num +decide [zeroItem]

/-- Claim C6 (amended): the three call sites disagree.  Only the
alerts/summary endpoint classifies low stock as
`threshold > 0 AND quantity <= threshold`; the inventory-list status CASE
tests `quantity <= low_stock_threshold` with no positivity guard (applied
when the expiry branches do not match), and the second route file's
GET /alerts requires `current_stock > 0` as well, so a zero-quantity item
is never reported low there. -/
theorem c6_low_stock_amended :
    (∀ it : InventoryItem, summaryLowStock it = true ↔
      0 < it.low_stock_threshold ∧ it.quantity ≤ it.low_stock_threshold) ∧
    (∀ (it : InventoryItem) (today : Int), it.expire_date = none →
      (statusOf it today = ItemStatus.low_stock ↔
        it.quantity ≤ it.low_stock_threshold)) ∧
    (∀ it : InventoryItemV1, alertsLowStock it = true ↔
      it.isActive = true ∧ it.current_stock ≤ it.min_stock ∧ 0 < it.current_stock) := by
  refine ⟨fun it => ?_, fun it today h => ?_, fun it => ?_⟩
  · simp [summaryLowStock, and_comm]
  · simp only [statusOf, h]
    split_ifs with hq
    · simp [hq]
    · simp +decide [hq]
  · simp [alertsLowStock, and_assoc]

/-- Witness for `c6_low_stock_amended`: the inventory-list status of
`zeroItem` (no expiry date) is low_stock exactly because its quantity is
at most its threshold. -/
theorem c6_low_stock_amended_witness :
    zeroItem.expire_date = none ∧
    (statusOf zeroItem 100 = ItemStatus.low_stock ↔
      zeroItem.quantity ≤ zeroItem.low_stock_threshold) :=
  ⟨rfl, c6_low_stock_amended.2.1 zeroItem 100 rfl⟩

/-- Claim C7 counterexample: at the alerts/summary call site an item whose
expiry date equals the current date (`now <= expiryDate` holds) is in
neither the expired nor the expiringSoon set, although the claim places
every such item in expiringSoon. -/
theorem c7_today_counterexample :
    expiresToday.expire_date = some 100 ∧
    summaryExpired 100 expiresToday = false ∧
    summaryExpiringSoon 100 expiresToday = false := by
  refine ⟨rfl, ?_, ?_⟩ <;>
    norm_num +decide [summaryExpired, summaryExpiringSoon, expiresToday]

/-- Claim C7 (amended): expired iff `expiryDate < today` holds at the
date-based call sites, but the expiringSoon window of alerts/summary is
`today < expiryDate <= today + 7`, excluding today (an item expiring today
is in neither set there); the inventory-list status CASE does classify a
today-expiring item as expiring_soon; the second route file's GET /alerts
compares the stored date against the current timestamp, so an item whose
expiry date is today counts as expired at any time after midnight.  An
item that expired yesterday is in expired and not in expiringSoon. -/
theorem c7_expiry_amended :
    (∀ (today : Int) (it : InventoryItem) (d : Int), it.expire_date = some d →
      ((summaryExpired today it = true ↔ d < today) ∧
       (summaryExpiringSoon today it = true ↔ today < d ∧ d ≤ today + 7))) ∧
    (∀ (today : Int) (it : InventoryItem), it.expire_date = some today →
      statusOf it today = ItemStatus.expiring_soon) ∧
    (∀ (today : Int) (it : InventoryItem), it.expire_date = some (today - 1) →
      summaryExpired today it = true ∧ summaryExpiringSoon today it = false) ∧
    (∀ (now : ℚ) (it : InventoryItemV1) (d : Int), it.expiry_date = some d →
      it.isActive = true → (alertsExpired now it = true ↔ (d : ℚ) < now)) := by
  refine ⟨fun today it d h => ?_, fun today it h => ?_, fun today it h => ?_,
    fun now it d h ha => ?_⟩
  · constructor
    · simp [summaryExpired, h]
    · simp [summaryExpiringSoon, h]
  · simp only [statusOf, h]
    rw [if_neg (lt_irrefl today), if_pos (by linarith)]
  · constructor
    · simp [summaryExpired, h]
    · simp [summaryExpiringSoon, h]
  · simp [alertsExpired, h, ha]

/-- Witness for `c7_expiry_amended`: the item expiring on day 100 is
classified by the summary queries exactly by the amended windows. -/
theorem c7_expiry_amended_witness :
    expiresToday.expire_date = some 100 ∧
    ((summaryExpired 101 expiresToday = true ↔ (100 : Int) < 101) ∧
      (summaryExpiringSoon 101 expiresToday = true ↔
        (101 : Int) < 100 ∧ (100 : Int) ≤ 101 + 7)) :=
  ⟨rfl, c7_expiry_amended.1 101 expiresToday 100 rfl⟩

/-! ## Claims about the non-negativity of stored quantities -/

/-- Claim C4 counterexample: the update route stores the caller-supplied
quantity with no sign check.  From a state where every stored quantity is
non-negative, updating item 1 with quantity -1 stores -1, so not every
quantity-mutating operation preserves non-negativity. -/
theorem c4_negative_update_counterexample :
    (∀ it ∈ dbFlour5.items, 0 ≤ it.quantity) ∧
    qtyOf (putInventoryItem dbFlour5 1 negUpdate "admin") 1 = -1 ∧
    ¬(∀ it ∈ (putInventoryItem dbFlour5 1 negUpdate "admin").items, 0 ≤ it.quantity) := by
  refine ⟨by norm_num +decide [dbFlour5, flour5], ?_, ?_⟩ <;>
    norm_num +decide [putInventoryItem, dbFlour5, flour5, negUpdate, qtyOf, qtyOfItems,
      List.find?, mkAdjustEntry]

/-- A fold preserves any property its step function preserves. -/
lemma foldl_preserve {α β : Type} (P : β → Prop) {f : β → α → β}
    (h : ∀ b a, P b → P (f b a)) : ∀ (l : List α) (b : β), P b → P (l.foldl f b)
  | [], _, hb => hb
  | a :: l, b, hb => foldl_preserve P h l (f b a) (h b a hb)

/-- The clamped stock UPDATE keeps every stored quantity non-negative. -/
lemma nonneg_deductItems {items : List InventoryItem} (t : Nat) (d : ℚ)
    (h : ∀ it ∈ items, 0 ≤ it.quantity) :
    ∀ it ∈ deductItems items t d, 0 ≤ it.quantity := by
  intro it hit
  rcases List.mem_map.mp hit with ⟨a, ha, rfl⟩
  by_cases hat : a.id = t
  · simp only [deduct_row_id, hat, if_pos]
    exact le_max_left 0 _
  · simp only [hat, if_neg, not_false_iff]
    exact h a ha

/-- One BOM deduction keeps every stored quantity non-negative. -/
lemma nonneg_processBomRow (orderId pid : Nat) (oqty : Nat) (user : String)
    (db : DB) (r : BomRow) (h : ∀ it ∈ db.items, 0 ≤ it.quantity) :
    ∀ it ∈ (processBomRow orderId pid oqty user db r).items, 0 ≤ it.quantity := by
  simp only [processBomRow]
  split_ifs <;> first
    | exact nonneg_deductItems _ _ h
    | exact h

/-- Order creation keeps every stored quantity non-negative. -/
lemma nonneg_createOrder (db : DB) (req : OrderReq)
    (h : ∀ it ∈ db.items, 0 ≤ it.quantity) :
    ∀ it ∈ ((createOrder db req).1).items, 0 ≤ it.quantity := by
  unfold createOrder
  split_ifs with hv
  · exact h
  · simp only [createOrderBody]
    apply foldl_preserve (fun d : DB => ∀ it ∈ d.items, 0 ≤ it.quantity)
    · intro b a hb
      exact foldl_preserve (fun d : DB => ∀ it ∈ d.items, 0 ≤ it.quantity)
        (fun b' a' hb' => nonneg_processBomRow _ _ _ _ b' a' hb') _ b hb
    · apply foldl_preserve (fun d : DB => ∀ it ∈ d.items, 0 ≤ it.quantity)
      · intro b a hb
        exact hb
      · exact h

/-- Claim C4 (amended): order-consumption deduction, add stock and remove
stock preserve non-negativity of every stored quantity (remove stock under
the primary-key uniqueness of item ids); the update route (and likewise
the create route) stores the caller-supplied quantity without a sign check
and can store a negative value, as the counterexample shows. -/
theorem c4_nonneg_amended (db : DB) (hnn : ∀ it ∈ db.items, 0 ≤ it.quantity) :
    (∀ req : OrderReq, ∀ it ∈ ((createOrder db req).1).items, 0 ≤ it.quantity) ∧
    (∀ (id : Nat) (q : ℚ) (user : String),
      ∀ it ∈ (addStock db id q user).items, 0 ≤ it.quantity) ∧
    ((db.items.map InventoryItem.id).Nodup →
      ∀ (id : Nat) (q : ℚ) (user : String),
        ∀ it ∈ (removeStock db id q user).items, 0 ≤ it.quantity) := by
  refine ⟨fun req => nonneg_createOrder db req hnn, ?_, ?_⟩
  · intro id q user
    unfold addStock
    split_ifs with hq
    · cases hf : db.items.find? fun it => it.id = id with
      | none => exact hnn
      | some it0 =>
        intro it hit
        rcases List.mem_map.mp hit with ⟨a, ha, rfl⟩
        by_cases hat : a.id = id
        · simp [hat]
          linarith [hnn a ha]
        · simp [hat]
          exact hnn a ha
    · exact hnn
  · intro hnd id q user
    unfold removeStock
    split_ifs with hq
    · cases hf : db.items.find? fun it => it.id = id with
      | none => exact hnn
      | some it0 =>
        have hmem : it0 ∈ db.items := List.mem_of_find?_eq_some hf
        have hid : it0.id = id := by simpa using List.find?_some hf
        dsimp only
        split_ifs with hlt
        · exact hnn
        · push_neg at hlt
          intro it hit
          rcases List.mem_map.mp hit with ⟨a, ha, rfl⟩
          by_cases hat : a.id = id
          · have haeq : a = it0 :=
              List.inj_on_of_nodup_map hnd ha hmem (by rw [hat, hid])
            simp [hat]
            subst haeq
            linarith
          · simp [hat]
            exact hnn a ha
    · exact hnn

/-- Witness for `c4_nonneg_amended`: removing 2 from the 5 grams of flour
keeps quantities non-negative. -/
theorem c4_nonneg_amended_witness :
    (∀ it ∈ dbFlour5.items, 0 ≤ it.quantity) ∧
    (dbFlour5.items.map InventoryItem.id).Nodup ∧
    (∀ it ∈ (removeStock dbFlour5 1 2 "admin").items, 0 ≤ it.quantity) :=
  ⟨by norm_num +decide [dbFlour5, flour5], by decide,
    (c4_nonneg_amended dbFlour5 (by norm_num +decide [dbFlour5, flour5])).2.2
      (by decide) 1 2 "admin"⟩

/-! ## Claim C9: replace-all recipe semantics -/

/-- Filtering twice with the same predicate filters once. -/
lemma filter_filter_self {α : Type} (q : α → Bool) (l : List α) :
    (l.filter q).filter q = l.filter q := by
  induction l with
  | nil => rfl
  | cons a t ih =>
    cases ha : q a with
    | true => simp [List.filter_cons, ha, ih]
    | false => simp [List.filter_cons, ha, ih]

lemma updQuantity_product_id (pid : Nat) (ing : IngredientReq) (r : ProductIngredient) :
    (updQuantity pid ing r).product_id = r.product_id := by
  unfold updQuantity; split <;> rfl

lemma updQuantity_item_id (pid : Nat) (ing : IngredientReq) (r : ProductIngredient) :
    (updQuantity pid ing r).inventory_item_id = r.inventory_item_id := by
  unfold updQuantity; split <;> rfl

lemma upsert_as_map (tbl : List ProductIngredient) (pid : Nat) (ing : IngredientReq)
    (h : (tbl.any fun r =>
      decide (r.product_id = pid) && decide (r.inventory_item_id = ing.inventory_item_id)) = true) :
    upsertIngredient tbl pid ing = tbl.map (updQuantity pid ing) := by
  unfold upsertIngredient
  rw [if_pos h]
  rfl

lemma upsert_as_append (tbl : List ProductIngredient) (pid : Nat) (ing : IngredientReq)
    (h : ¬ (tbl.any fun r =>
      decide (r.product_id = pid) && decide (r.inventory_item_id = ing.inventory_item_id)) = true) :
    upsertIngredient tbl pid ing =
      tbl ++ [{ product_id := pid, inventory_item_id := ing.inventory_item_id,
                quantity := ing.quantity }] := by
  unfold upsertIngredient
  rw [if_neg h]

/-- Rows of other products pass through the ON CONFLICT UPDATE unchanged. -/
lemma map_upd_filter_ne (tbl : List ProductIngredient) (pid : Nat) (ing : IngredientReq) :
    ((tbl.map (updQuantity pid ing)).filter fun r => ¬ r.product_id = pid) =
      tbl.filter fun r => ¬ r.product_id = pid := by
  induction tbl with
  | nil => rfl
  | cons a t ih =>
    simp only [decide_not] at ih
    by_cases hap : a.product_id = pid
    · simp [List.filter_cons, updQuantity_product_id, hap, ih]
    · have ha : updQuantity pid ing a = a := by
        unfold updQuantity
        rw [if_neg]
        intro hc
        exact hap hc.1
      simp [List.filter_cons, updQuantity_product_id, ha, hap, ih]

/-- The product's own rows are mapped pointwise by the ON CONFLICT UPDATE. -/
lemma map_upd_filter_eq (tbl : List ProductIngredient) (pid : Nat) (ing : IngredientReq) :
    ((tbl.map (updQuantity pid ing)).filter fun r => r.product_id = pid) =
      (tbl.filter fun r => r.product_id = pid).map (updQuantity pid ing) := by
  induction tbl with
  | nil => rfl
  | cons a t ih =>
    by_cases hap : a.product_id = pid
    · simp [List.filter_cons, updQuantity_product_id, hap, ih]
    · simp [List.filter_cons, updQuantity_product_id, hap, ih]

/-- An upsert leaves the rows of other products untouched. -/
lemma upsert_keeps_other_products (tbl : List ProductIngredient) (pid : Nat)
    (ing : IngredientReq) :
    ((upsertIngredient tbl pid ing).filter fun r => ¬ r.product_id = pid) =
      tbl.filter fun r => ¬ r.product_id = pid := by
  by_cases h : (tbl.any fun r =>
      decide (r.product_id = pid) && decide (r.inventory_item_id = ing.inventory_item_id)) = true
  · rw [upsert_as_map tbl pid ing h, map_upd_filter_ne]
  · rw [upsert_as_append tbl pid ing h, List.filter_append]
    simp

/-- Folding the replace-all upsert loop never touches other products'
rows. -/
lemma setRecipe_fold_filter_ne (pid : Nat) (ings : List IngredientReq) :
    ∀ t : List ProductIngredient,
      ((ings.foldl (fun t ing =>
        if ing.inventory_item_id ≠ 0 ∧ 0 < ing.quantity then upsertIngredient t pid ing
        else t) t).filter fun r => ¬ r.product_id = pid) =
      t.filter fun r => ¬ r.product_id = pid := by
  induction ings with
  | nil => intro t; rfl
  | cons i is ih =>
    intro t
    rw [List.foldl_cons, ih]
    by_cases hv : i.inventory_item_id ≠ 0 ∧ 0 < i.quantity
    · rw [if_pos hv, upsert_keeps_other_products]
    · rw [if_neg hv]

/-- Mapping the ON CONFLICT UPDATE over rows keeps their item ids. -/
lemma map_upd_item_ids (pid : Nat) (ing : IngredientReq) :
    ∀ l : List ProductIngredient,
      (l.map (updQuantity pid ing)).map (fun r => r.inventory_item_id) =
        l.map fun r => r.inventory_item_id
  | [] => rfl
  | a :: t => by
    simp only [List.map_cons, updQuantity_item_id]
    rw [map_upd_item_ids pid ing t]

/-- An upsert keeps the product's ingredient ids duplicate-free. -/
lemma upsert_nodup (tbl : List ProductIngredient) (pid : Nat) (ing : IngredientReq)
    (h : (((tbl.filter fun r => r.product_id = pid).map
      fun r => r.inventory_item_id)).Nodup) :
    ((((upsertIngredient tbl pid ing).filter fun r => r.product_id = pid).map
      fun r => r.inventory_item_id)).Nodup := by
  by_cases hany : (tbl.any fun r =>
      decide (r.product_id = pid) && decide (r.inventory_item_id = ing.inventory_item_id)) = true
  · rw [upsert_as_map tbl pid ing hany, map_upd_filter_eq, map_upd_item_ids]
    exact h
  · rw [upsert_as_append tbl pid ing hany]
    rw [List.filter_append, List.map_append, List.nodup_append]
    refine ⟨h, by simp, ?_⟩
    intro x hx hx'
    simp at hx'
    subst hx'
    rcases List.mem_map.mp hx with ⟨r, hr, hrid⟩
    rcases List.mem_filter.mp hr with ⟨hrmem, hrpid⟩
    apply hany
    rw [List.any_eq_true]
    refine ⟨r, hrmem, ?_⟩
    simp only [Bool.and_eq_true, decide_eq_true_eq]
    exact ⟨by simpa using hrpid, hrid⟩

/-- Folding the replace-all upsert loop keeps the product's ingredient ids
duplicate-free. -/
lemma setRecipe_fold_nodup (pid : Nat) (ings : List IngredientReq) :
    ∀ t : List ProductIngredient,
      (((t.filter fun r => r.product_id = pid).map fun r => r.inventory_item_id)).Nodup →
      ((((ings.foldl (fun t ing =>
        if ing.inventory_item_id ≠ 0 ∧ 0 < ing.quantity then upsertIngredient t pid ing
        else t) t).filter fun r => r.product_id = pid).map
          fun r => r.inventory_item_id)).Nodup := by
  induction ings with
  | nil => intro t ht; exact ht
  | cons i is ih =>
    intro t ht
    rw [List.foldl_cons]
    by_cases hv : i.inventory_item_id ≠ 0 ∧ 0 < i.quantity
    · rw [if_pos hv]
      exact ih _ (upsert_nodup t pid i ht)
    · rw [if_neg hv]
      exact ih _ ht

/-- The DELETE step leaves no row of the product behind. -/
lemma filter_ne_then_eq_nil (tbl : List ProductIngredient) (pid : Nat) :
    ((tbl.filter fun r => ¬ r.product_id = pid).filter fun r => r.product_id = pid) = [] := by
  induction tbl with
  | nil => rfl
  | cons a t ih =>
    by_cases hap : a.product_id = pid
    · rw [List.filter_cons, if_neg (by simp [hap])]
      exact ih
    · rw [List.filter_cons, if_pos (by simp [hap]), List.filter_cons,
        if_neg (by simp [hap])]
      exact ih

/-- Claim C9: replacing a product's whole ingredient list is idempotent —
running the replace-all route twice with the same list yields the same
table — and afterwards the product has exactly one BOM row per ingredient
(its ingredient ids are duplicate-free), so `entriesFor` returns the same,
stably ordered rows after the repeated call. -/
theorem c9_set_recipe_idempotent (tbl : List ProductIngredient) (pid : Nat)
    (ings : List IngredientReq) :
    setRecipe (setRecipe tbl pid ings) pid ings = setRecipe tbl pid ings ∧
    (((entriesFor (setRecipe tbl pid ings) pid).map
      fun r => r.inventory_item_id)).Nodup ∧
    entriesFor (setRecipe (setRecipe tbl pid ings) pid ings) pid =
      entriesFor (setRecipe tbl pid ings) pid := by
  have hidem : setRecipe (setRecipe tbl pid ings) pid ings = setRecipe tbl pid ings := by
    show (ings.foldl _ ((setRecipe tbl pid ings).filter fun r => ¬ r.product_id = pid)) = _
    unfold setRecipe
    rw [setRecipe_fold_filter_ne, filter_filter_self]
  refine ⟨hidem, ?_, by rw [hidem]⟩
  unfold entriesFor setRecipe
  apply setRecipe_fold_nodup
  rw [filter_ne_then_eq_nil]
  exact List.nodup_nil

/-! ## Claim C5: conservation of stock against the SALE ledger -/

lemma saleSum_nil (i : Nat) : saleSum i [] = 0 := rfl

lemma saleSum_append (i : Nat) (l1 l2 : List LedgerEntry) :
    saleSum i (l1 ++ l2) = saleSum i l1 + saleSum i l2 := by
  unfold saleSum
  rw [List.map_append, List.sum_append]

lemma saleSum_sale_entry (i orderId pid : Nat) (user : String) (iid : Nat)
    (q : ℚ) (u : StockUnit) :
    saleSum i [mkSaleEntry orderId pid user iid q u] = if i = iid then q else 0 := by
  unfold saleSum mkSaleEntry
  by_cases h : i = iid
  · simp [h]
  · simp only [List.map_cons, List.map_nil, List.sum_cons, List.sum_nil, if_neg h]
    rw [if_neg]
    · ring
    · intro hc
      exact h hc.2.symm

lemma stepRel_refl (db : DB) : StepRel db db := by
  refine ⟨rfl, [], by simp, fun i => ?_⟩
  refine ⟨le_refl 0, le_max_left 0 _, by simp [saleSum_nil]⟩

lemma stepRel_trans {db1 db2 db3 : DB} (h12 : StepRel db1 db2)
    (h23 : StepRel db2 db3) : StepRel db1 db3 := by
  obtain ⟨hp12, t12, ht12, h12i⟩ := h12
  obtain ⟨hp23, t23, ht23, h23i⟩ := h23
  refine ⟨hp23.trans hp12, t12 ++ t23,
    by rw [ht23, ht12, List.append_assoc], fun i => ?_⟩
  obtain ⟨ha1, hb1, hc1⟩ := h12i i
  obtain ⟨ha2, hb2, hc2⟩ := h23i i
  rw [saleSum_append]
  refine ⟨by linarith, ?_, by rw [hc2, hc1]; ring⟩
  by_cases hq : 0 ≤ qtyOf db1 i
  · have h1 : saleSum i t12 ≤ qtyOf db1 i := by
      rw [max_eq_right hq] at hb1; exact hb1
    have h2 : saleSum i t23 ≤ qtyOf db1 i - saleSum i t12 := by
      rw [hc1] at hb2
      calc saleSum i t23 ≤ max 0 (qtyOf db1 i - saleSum i t12) := hb2
        _ = qtyOf db1 i - saleSum i t12 := max_eq_right (by linarith)
    rw [max_eq_right hq]
    linarith
  · push_neg at hq
    have h0 : max 0 (qtyOf db1 i) = 0 := max_eq_left (le_of_lt hq)
    have h1 : saleSum i t12 = 0 := by
      rw [h0] at hb1; linarith
    have h2 : saleSum i t23 = 0 := by
      have hmax2 : max 0 (qtyOf db2 i) = 0 := by
        rw [hc1, h1, sub_zero]
        exact max_eq_left (le_of_lt hq)
      rw [hmax2] at hb2; linarith
    rw [h0, h1, h2]
    norm_num

lemma qtyOf_processBomRow_ne (orderId pid : Nat) (oqty : Nat) (user : String)
    (db : DB) (r : BomRow) (i : Nat) (h : i ≠ r.inventory_item_id) :
    qtyOf (processBomRow orderId pid oqty user db r) i = qtyOf db i := by
  simp only [processBomRow]
  split_ifs <;> first
    | exact qtyOfItems_deduct_ne db.items r.inventory_item_id _ i h
    | rfl

/-- A state whose items, transactions and BOM table agree with another is
related to it. -/
lemma stepRel_of_parts {db db' : DB} (hit : db'.items = db.items)
    (htr : db'.transactions = db.transactions)
    (hpi : db'.product_inventory = db.product_inventory) : StepRel db db' := by
  refine ⟨hpi, [], by simp [htr], fun i => ?_⟩
  refine ⟨le_refl 0, le_max_left 0 _, ?_⟩
  show qtyOfItems db'.items i = qtyOfItems db.items i - saleSum i []
  rw [hit, saleSum_nil, sub_zero]

/-- Deducting a positive amount bounded by the stored stock and logging
exactly that amount as a SALE entry is one conservation step. -/
lemma stepRel_deduct_and_log (orderId pid : Nat) (user : String) (iid : Nat)
    (u : StockUnit) (db : DB) (d : ℚ) (hdpos : 0 < d) (hdle : d ≤ qtyOf db iid) :
    StepRel db { db with
      items := deductItems db.items iid d
      transactions := db.transactions ++ [mkSaleEntry orderId pid user iid d u] } := by
  refine ⟨rfl, [mkSaleEntry orderId pid user iid d u], rfl, fun i => ?_⟩
  rw [saleSum_sale_entry]
  by_cases hi : i = iid
  · subst hi
    rw [if_pos rfl]
    have hq0 : 0 ≤ qtyOf db i := le_trans (le_of_lt hdpos) hdle
    refine ⟨le_of_lt hdpos, by rw [max_eq_right hq0]; exact hdle, ?_⟩
    show qtyOfItems (deductItems db.items i d) i = qtyOf db i - d
    rw [qtyOfItems_deduct_eq _ _ _ (le_of_lt hdpos)]
    have hdle' : d ≤ qtyOfItems db.items i := hdle
    exact max_eq_right (by linarith)
  · rw [if_neg hi]
    refine ⟨le_refl 0, le_max_left 0 _, ?_⟩
    show qtyOfItems (deductItems db.items iid d) i = qtyOf db i - 0
    rw [qtyOfItems_deduct_ne _ _ _ _ hi, sub_zero]
    rfl

/-- One iteration of the BOM deduction loop is a conservation step
whenever its stock snapshot agrees with the stored quantity. -/
lemma stepRel_processBomRow (orderId pid : Nat) (oqty : Nat) (user : String)
    (db : DB) (r : BomRow)
    (hsnap : qtyOf db r.inventory_item_id = r.current_quantity) :
    StepRel db (processBomRow orderId pid oqty user db r) := by
  simp only [processBomRow]
  split_ifs with h1 h2 h3
  · exact stepRel_deduct_and_log orderId pid user r.inventory_item_id
      r.inventory_unit db r.current_quantity h2 (le_of_eq hsnap.symm)
  · exact stepRel_refl db
  · exact stepRel_deduct_and_log orderId pid user r.inventory_item_id
      r.inventory_unit db _ h3 (by rw [hsnap]; exact le_of_not_lt h1)
  · exact stepRel_refl db

/-- Every row produced by the BOM SELECT carries the stored quantity of
its inventory item as snapshot. -/
lemma bomQuery_snapshot (db : DB) (pid : Nat) :
    ∀ r ∈ bomQuery db pid, qtyOf db r.inventory_item_id = r.current_quantity := by
  intro r hr
  unfold bomQuery at hr
  rcases List.mem_filterMap.mp hr with ⟨e, _, hfe⟩
  cases hfind : db.items.find? fun it => it.id = e.inventory_item_id with
  | none => rw [hfind] at hfe; simp at hfe
  | some ii =>
    rw [hfind] at hfe
    simp only [Option.map] at hfe
    injection hfe with hfe
    subst hfe
    show qtyOfItems db.items e.inventory_item_id = ii.quantity
    unfold qtyOfItems
    rw [hfind]
    rfl

/-- The item ids of the BOM SELECT rows form a sublist of the item ids of
the product's BOM table rows. -/
lemma bomQuery_iids_sublist (db : DB) (pid : Nat) :
    ((bomQuery db pid).map fun r => r.inventory_item_id).Sublist
      ((db.product_inventory.filter fun e => e.product_id = pid).map
        fun e => e.inventory_item_id) := by
  unfold bomQuery
  generalize (db.product_inventory.filter fun e => e.product_id = pid) = l
  induction l with
  | nil => simp
  | cons e t ih =>
    rw [List.filterMap_cons, List.map_cons]
    cases hfind : db.items.find? fun it => it.id = e.inventory_item_id with
    | none =>
      simp only [hfind, Option.map]
      exact ih.cons e.inventory_item_id
    | some ii =>
      simp only [hfind, Option.map, List.map_cons]
      exact ih.cons₂ e.inventory_item_id

/-- Under the UNIQUE(product_id, inventory_item_id) constraint, the BOM
SELECT of one product returns rows with pairwise distinct item ids. -/
lemma bomQuery_nodup (db : DB) (pid : Nat) (hB : bomUnique db) :
    ((bomQuery db pid).map fun r => r.inventory_item_id).Nodup := by
  apply List.Nodup.sublist (bomQuery_iids_sublist db pid)
  have hpw : (db.product_inventory.filter fun e => e.product_id = pid).Pairwise
      fun a b => ¬(a.product_id = b.product_id ∧ a.inventory_item_id = b.inventory_item_id) :=
    List.Pairwise.sublist (List.filter_sublist _) hB
  show ((db.product_inventory.filter fun e => e.product_id = pid).map
    fun e => e.inventory_item_id).Pairwise (fun a b => a ≠ b)
  rw [List.pairwise_map]
  refine List.Pairwise.imp_of_mem ?_ hpw
  intro a b ha hb hne hiid
  have hpa : a.product_id = pid := by
    simpa using (List.mem_filter.mp ha).2
  have hpb : b.product_id = pid := by
    simpa using (List.mem_filter.mp hb).2
  exact hne ⟨hpa.trans hpb.symm, hiid⟩

/-- Folding the BOM deduction loop over rows with valid snapshots and
pairwise distinct item ids is a conservation step. -/
lemma stepRel_rowFold (orderId pid : Nat) (oqty : Nat) (user : String) :
    ∀ (rows : List BomRow) (db : DB),
      (∀ r ∈ rows, qtyOf db r.inventory_item_id = r.current_quantity) →
      ((rows.map fun r => r.inventory_item_id)).Nodup →
      StepRel db (rows.foldl (processBomRow orderId pid oqty user) db) := by
  intro rows
  induction rows with
  | nil => intro db _ _; exact stepRel_refl db
  | cons r rest ih =>
    intro db hsnap hnd
    rw [List.foldl_cons]
    have h1 : StepRel db (processBomRow orderId pid oqty user db r) :=
      stepRel_processBomRow orderId pid oqty user db r
        (hsnap r (List.mem_cons_self r rest))
    rw [List.map_cons] at hnd
    have hnotmem := (List.nodup_cons.mp hnd).1
    have hnd' := (List.nodup_cons.mp hnd).2
    have hsnap' : ∀ r' ∈ rest,
        qtyOf (processBomRow orderId pid oqty user db r) r'.inventory_item_id =
          r'.current_quantity := by
      intro r' hr'
      have hne : r'.inventory_item_id ≠ r.inventory_item_id := by
        intro he
        apply hnotmem
        rw [← he]
        exact List.mem_map_of_mem _ hr'
      rw [qtyOf_processBomRow_ne orderId pid oqty user db r _ hne]
      exact hsnap r' (List.mem_cons_of_mem r hr')
    exact stepRel_trans h1 (ih _ hsnap' hnd')

/-- Running the BOM-deduction loops for a list of sold items is a
conservation step (the BOM SELECT is re-run per item, so snapshots stay
valid). -/
lemma stepRel_itemsFold (orderId : Nat) (user : String)
    (itemsL : List OrderItemReq) :
    ∀ db : DB, bomUnique db →
      StepRel db (itemsL.foldl (fun d it =>
        (bomQuery d it.product_id).foldl
          (processBomRow orderId it.product_id it.qty user) d) db) := by
  induction itemsL with
  | nil => intro db _; exact stepRel_refl db
  | cons it rest ih =>
    intro db hB
    rw [List.foldl_cons]
    have h1 : StepRel db ((bomQuery db it.product_id).foldl
        (processBomRow orderId it.product_id it.qty user) db) :=
      stepRel_rowFold orderId it.product_id it.qty user _ db
        (bomQuery_snapshot db it.product_id) (bomQuery_nodup db it.product_id hB)
    have hB' : bomUnique ((bomQuery db it.product_id).foldl
        (processBomRow orderId it.product_id it.qty user) db) := by
      unfold bomUnique
      rw [h1.1]
      exact hB
    exact stepRel_trans h1 (ih _ hB')

/-- Inserting the order_items rows touches neither the items, the ledger,
nor the BOM table. -/
lemma orderItems_fold_parts (orderId : Nat) (l : List OrderItemReq) :
    ∀ d : DB,
      (l.foldl (fun d it => { d with order_items := d.order_items ++
        [{ order_id := orderId, product_id := it.product_id, qty := it.qty,
           price := it.price }] }) d).items = d.items ∧
      (l.foldl (fun d it => { d with order_items := d.order_items ++
        [{ order_id := orderId, product_id := it.product_id, qty := it.qty,
           price := it.price }] }) d).transactions = d.transactions ∧
      (l.foldl (fun d it => { d with order_items := d.order_items ++
        [{ order_id := orderId, product_id := it.product_id, qty := it.qty,
           price := it.price }] }) d).product_inventory = d.product_inventory := by
  induction l with
  | nil => intro d; exact ⟨rfl, rfl, rfl⟩
  | cons a t ih =>
    intro d
    rw [List.foldl_cons]
    exact ih _

/-- A whole successful order is a conservation step. -/
lemma stepRel_createOrder (db : DB) (req : OrderReq) (hB : bomUnique db) :
    StepRel db (createOrder db req).1 := by
  unfold createOrder
  split_ifs with hv
  · exact stepRel_refl db
  · show StepRel db (createOrderBody db req)
    simp only [createOrderBody]
    have hparts := orderItems_fold_parts db.nextOrderId req.items
      { db with
        orders := db.orders ++
          [{ id := db.nextOrderId, total := req.total, payment_method := req.payment_method }]
        nextOrderId := db.nextOrderId + 1 }
    refine stepRel_trans (stepRel_of_parts hparts.1 hparts.2.1 hparts.2.2) ?_
    apply stepRel_itemsFold db.nextOrderId req.user req.items
    unfold bomUnique
    rw [hparts.2.2]
    exact hB

/-- Any sequence of orders is a conservation step. -/
lemma stepRel_processOrders (reqs : List OrderReq) :
    ∀ db : DB, bomUnique db → StepRel db (processOrders db reqs) := by
  induction reqs with
  | nil => intro db _; exact stepRel_refl db
  | cons r rest ih =>
    intro db hB
    unfold processOrders
    rw [List.foldl_cons]
    have h1 := stepRel_createOrder db r hB
    have hB' : bomUnique (createOrder db r).1 := by
      unfold bomUnique
      rw [h1.1]
      exact hB
    exact stepRel_trans h1 (ih _ hB')

/-- Claim C5: for any sequence of orders with no manual adjustments
(starting from non-negative stock, under the UNIQUE BOM constraint),
every inventory item ends with exactly its initial quantity minus the sum
of the SALE ledger entries the orders appended for it — clamped at zero,
which never bites because each logged deduction was bounded by the stock
available at its moment. -/
theorem c5_conservation (db : DB) (reqs : List OrderReq)
    (hB : bomUnique db) (hQ : ∀ it ∈ db.items, 0 ≤ it.quantity) :
    ∃ tail, (processOrders db reqs).transactions = db.transactions ++ tail ∧
      ∀ i, qtyOf (processOrders db reqs) i =
        max 0 (qtyOf db i - saleSum i tail) := by
  obtain ⟨hpi, tail, htr, hi⟩ := stepRel_processOrders reqs db hB
  refine ⟨tail, htr, fun i => ?_⟩
  obtain ⟨h0, hle, heq⟩ := hi i
  have hq0 : 0 ≤ qtyOf db i := by
    show 0 ≤ qtyOfItems db.items i
    unfold qtyOfItems
    cases hf : db.items.find? fun it => it.id = i with
    | none => simp
    | some it => simpa using hQ it (List.mem_of_find?_eq_some hf)
  have hs : saleSum i tail ≤ qtyOf db i := by
    rw [max_eq_right hq0] at hle
    exact hle
  rw [heq, max_eq_right (by linarith)]

/-- Witness for `c5_conservation`: the end-to-end scenario of the spec —
150 grams in stock, a recipe needing 200 grams, one unit sold. -/
theorem c5_conservation_witness :
    bomUnique dbScenario ∧ (∀ it ∈ dbScenario.items, 0 ≤ it.quantity) ∧
    (∃ tail, (processOrders dbScenario [reqScenario]).transactions =
        dbScenario.transactions ++ tail ∧
      ∀ i, qtyOf (processOrders dbScenario [reqScenario]) i =
        max 0 (qtyOf dbScenario i - saleSum i tail)) :=
  ⟨by norm_num +decide [bomUnique, dbScenario],
   by norm_num +decide [dbScenario],
   c5_conservation dbScenario [reqScenario]
     (by norm_num +decide [bomUnique, dbScenario])
     (by norm_num +decide [dbScenario])⟩

/-! ## Claim C3: atomicity under storage faults -/

/-- A monadic fold whose step either throws or agrees with a pure step
either throws or agrees with the pure fold. -/
lemma foldlM_agree {α β : Type} (f : β → α → Except Unit β) (g : β → α → β)
    (hfg : ∀ b a, f b a = Except.error () ∨ f b a = Except.ok (g b a)) :
    ∀ (l : List α) (b : β),
      l.foldlM f b = Except.error () ∨
      l.foldlM f b = Except.ok (l.foldl g b) := by
  intro l
  induction l with
  | nil => intro b; right; rfl
  | cons a t ih =>
    intro b
    rw [List.foldlM_cons, List.foldl_cons]
    rcases hfg b a with h | h
    · rw [h]; left; rfl
    · rw [h]
      exact ih (g b a)

/-- Sequencing: a bind of agreeing computations agrees. -/
lemma bind_agree {β : Type} (m : Except Unit β) (g : β) (k : β → Except Unit β)
    (gk : β → β) (hm : m = Except.error () ∨ m = Except.ok g)
    (hk : ∀ b, k b = Except.error () ∨ k b = Except.ok (gk b)) :
    (m >>= k) = Except.error () ∨ (m >>= k) = Except.ok (gk g) := by
  rcases hm with h | h <;> rw [h]
  · left; rfl
  · exact hk g

/-- With no ledger fault, one faulty BOM-loop iteration either throws (a
stock UPDATE fault) or agrees with the pure iteration. -/
lemma processBomRowF_agree (faults : DbOp → Bool) (orderId pid : Nat)
    (oqty : Nat) (user : String)
    (hL : ∀ i, faults (DbOp.ledgerInsert i) = false) (db : DB) (r : BomRow) :
    processBomRowF faults orderId pid oqty user db r = Except.error () ∨
    processBomRowF faults orderId pid oqty user db r =
      Except.ok (processBomRow orderId pid oqty user db r) := by
  simp only [processBomRowF, processBomRow, chk, hL, Bool.false_eq_true, if_false]
  split_ifs <;> first
    | (left; rfl)
    | (right; rfl)

/-- One order-item insert with faults either throws or agrees with the
pure insert. -/
lemma orderItemInsertF_agree (faults : DbOp → Bool) (orderId : Nat) (d : DB)
    (it : OrderItemReq) :
    (do
      let _ ← chk faults (DbOp.orderItemInsert it.product_id)
      pure { d with order_items := d.order_items ++
        [{ order_id := orderId, product_id := it.product_id, qty := it.qty,
           price := it.price }] } : Except Unit DB) = Except.error () ∨
    (do
      let _ ← chk faults (DbOp.orderItemInsert it.product_id)
      pure { d with order_items := d.order_items ++
        [{ order_id := orderId, product_id := it.product_id, qty := it.qty,
           price := it.price }] } : Except Unit DB) =
      Except.ok { d with order_items := d.order_items ++
        [{ order_id := orderId, product_id := it.product_id, qty := it.qty,
           price := it.price }] } := by
  by_cases h : faults (DbOp.orderItemInsert it.product_id) = true
  · left
    simp only [chk]
    rw [if_pos h]
    rfl
  · right
    simp only [chk]
    rw [if_neg h]
    rfl

/-- One sold item's BOM select and deduction loop with faults either
throws or agrees with the pure loop, when no ledger insert faults. -/
lemma bomStepF_agree (faults : DbOp → Bool) (orderId : Nat) (user : String)
    (hL : ∀ i, faults (DbOp.ledgerInsert i) = false) (d : DB)
    (it : OrderItemReq) :
    (do
      let _ ← chk faults (DbOp.bomSelect it.product_id)
      (bomQuery d it.product_id).foldlM
        (processBomRowF faults orderId it.product_id it.qty user) d :
          Except Unit DB) = Except.error () ∨
    (do
      let _ ← chk faults (DbOp.bomSelect it.product_id)
      (bomQuery d it.product_id).foldlM
        (processBomRowF faults orderId it.product_id it.qty user) d :
          Except Unit DB) =
      Except.ok ((bomQuery d it.product_id).foldl
        (processBomRow orderId it.product_id it.qty user) d) := by
  by_cases h : faults (DbOp.bomSelect it.product_id) = true
  · left
    simp only [chk]
    rw [if_pos h]
    rfl
  · simp only [chk]
    rw [if_neg h]
    exact foldlM_agree _ _
      (processBomRowF_agree faults orderId it.product_id it.qty user hL)
      (bomQuery d it.product_id) d

/-- With no ledger fault, the faulty transaction body either throws or
computes exactly the pure body. -/
lemma createOrderBodyF_agree (faults : DbOp → Bool) (db : DB) (req : OrderReq)
    (hL : ∀ i, faults (DbOp.ledgerInsert i) = false) :
    createOrderBodyF faults db req = Except.error () ∨
    createOrderBodyF faults db req = Except.ok (createOrderBody db req) := by
  simp only [createOrderBodyF, createOrderBody, chk]
  by_cases h1 : faults DbOp.orderInsert = true
  · rw [if_pos h1]
    left
    rfl
  · rw [if_neg h1]
    exact bind_agree _ _ _ _
      (foldlM_agree _ _
        (fun d it => orderItemInsertF_agree faults db.nextOrderId d it) req.items _)
      (fun b => foldlM_agree _ _
        (fun d it => bomStepF_agree faults db.nextOrderId req.user hL d it)
        req.items b)

/-- Claim C3 (amended): as long as no SALE ledger insert faults, order
placement is atomic: any storage fault rolls the database back unchanged
and the request fails; otherwise the request behaves exactly as the
fault-free route.  (A faulting SALE ledger insert breaks this, as the
counterexample shows: the deduction is kept, the order commits, and the
ledger entry is silently missing.) -/
theorem c3_atomic_amended (faults : DbOp → Bool) (db : DB) (req : OrderReq)
    (hL : ∀ i, faults (DbOp.ledgerInsert i) = false) :
    createOrderF faults db req = (db, false) ∨
    createOrderF faults db req = createOrder db req := by
  unfold createOrderF createOrder
  split_ifs with hv
  · left; rfl
  · rcases createOrderBodyF_agree faults db req hL with h | h <;> rw [h]
    · left; rfl
    · right; rfl

/-- Witness for `c3_atomic_amended` with no faults at all: the run agrees
with the fault-free route. -/
theorem c3_atomic_amended_witness :
    (∀ i, (fun _ : DbOp => false) (DbOp.ledgerInsert i) = false) ∧
    (createOrderF (fun _ => false) dbOrder reqOne = (dbOrder, false) ∨
      createOrderF (fun _ => false) dbOrder reqOne = createOrder dbOrder reqOne) :=
  ⟨fun _ => rfl,
    c3_atomic_amended (fun _ => false) dbOrder reqOne (fun _ => rfl)⟩

/-- Claim C3 counterexample: when the SALE ledger insert itself throws,
the order still succeeds, the stock deduction (10 - 4 = 6 grams) is
committed, and no ledger entry exists — order placement did not fully
fail and the stock changed, contradicting the claimed all-or-nothing
behavior for ledger-insert faults. -/
theorem c3_swallowed_ledger_counterexample :
    (createOrderF ledgerFaults dbOrder reqOne).2 = true ∧
    qtyOf (createOrderF ledgerFaults dbOrder reqOne).1 1 = 6 ∧
    ((createOrderF ledgerFaults dbOrder reqOne).1).transactions = [] := by
  refine ⟨?_, ?_, ?_⟩ <;>
    norm_num +decide [createOrderF, createOrderBodyF, chk, ledgerFaults,
      processBomRowF, bomQuery, dbOrder, sugar10, reqOne, qtyOf, qtyOfItems,
      deductItems, convertQty, mkSaleEntry, List.foldlM_cons, List.foldlM_nil,
      Bind.bind, Except.bind, Pure.pure, Except.pure, List.find?, List.filterMap,
      List.filter]
